import Mathlib

/-!
Verification of the transactional image-mutation pipeline of omnect-cli
(src/src/lib.rs, function run_image_command and the TempDirGuard scope
guard).

The shallow embedding models the filesystem as a map from paths to file
contents together with a directory-existence map.  The external
collaborators that are not part of the sources (the compression adapter
src/file/compression.rs, the sparse copier libfs, and the bmap generator
file::functions::generate_bmap_file) appear as an abstract operations
record plus spec-modelled path arithmetic; the orchestration itself
(precondition checks, staging, mutation, bmap emission, compression and
copy-back, guard-based cleanup) is translated step by step from
run_image_command.

Machine-level failure of the plain filesystem primitives (create_dir_all,
std::fs::copy, libfs::copy_file) is not modelled; the fallible adapter
operations (decompress, compress, bmap generation) and the caller-supplied
mutation return Except values, and removal failure of the temp directory
guard is modelled by the removeOk flag.
-/

deriving instance DecidableEq for Except

namespace OmnectCli

/-- File contents, abstracted as strings of bytes. -/
abbrev Content := String

/-- Error values: anyhow error messages. -/
abbrev Err := String

/-- A filesystem path: directory components plus a file name.  Mirrors the
PathBuf values handled by run_image_command, all of which have a final
file-name component. -/
structure Path where
  dir : List String
  fname : String
deriving DecidableEq, Repr

/-- Rendering of a path as an absolute string, as PathBuf::to_str does for
the error messages of run_image_command. -/
def Path.render (p : Path) : String :=
  "/" ++ String.intercalate "/" (p.dir ++ [p.fname])

/-- Drops the last dot of a character list and everything after it;
none when the list holds no dot. -/
def dropLastSegment : List Char → Option (List Char)
  | [] => none
  | c :: cs =>
    match dropLastSegment cs with
    | some cs2 => some (c :: cs2)
    | none => if c = '.' then some [] else none

/-- Rust PathBuf::set_extension applied with the empty string to a file
name (lib.rs line 95, dest_image_file.set_extension): drops the portion
from the last dot on, unless the name has no extension (no dot, or only
the leading character is a dot), in which case it is unchanged. -/
def stripExt (f : String) : String :=
  match f.data with
  | [] => f
  | c0 :: rest =>
    match dropLastSegment rest with
    | some cs => ⟨c0 :: cs⟩
    | none => f

/-- Suffix test on strings by structural recursion over the character
lists, as str::ends_with. -/
def hasSuffix (s sfx : String) : Bool :=
  sfx.data.isSuffixOf s.data

/-- Modelled from the spec: the codec enumeration of the Compression
Adapter (src/file/compression.rs is not among the sources); the spec calls
it an enumerated codec identifier such as gzip, xz, zstd. -/
inductive Compression
  | gzip
  | xz
  | zstd
deriving DecidableEq, Repr

/-- Modelled from the spec: the file-name extension of each codec, used
for suffix detection and for naming compressed output. -/
def Compression.ext : Compression → String
  | .gzip => "gz"
  | .xz => "xz"
  | .zstd => "zst"

/-- Modelled from the spec: Compression::from_file detects the codec from
a recognized file-extension suffix of the path; an unrecognized or absent
suffix means plain (none).  lib.rs line 92 calls it on the original image
path. -/
def Compression.from_file (p : Path) : Option Compression :=
  if hasSuffix p.fname ".gz" then some .gzip
  else if hasSuffix p.fname ".xz" then some .xz
  else if hasSuffix p.fname ".zst" then some .zstd
  else none

/-- Filesystem contents (files only) plus directory existence. -/
structure State where
  files : Path → Option Content
  dirs : List String → Bool

/-- Writing one file, as the copy and decompress primitives do. -/
def State.write (st : State) (p : Path) (c : Content) : State :=
  { st with files := fun q => if q = p then some c else st.files q }

/-- Observable copy events, distinguishing the plain std::fs::copy from
the sparse-aware libfs::copy_file. -/
inductive Event
  | plainCopy (src dst : Path)
  | sparseCopy (src dst : Path)
deriving DecidableEq, Repr

/-- The abstract behaviour of the external collaborators: decompression
and compression of contents and bmap generation, each fallible as their
call sites in run_image_command are. -/
structure Ops where
  decode : Compression → Content → Except Err Content
  encode : Compression → Content → Except Err Content
  bmapOf : Content → Except Err Content

/-- The staging directory /tmp/{uuid} of lib.rs line 77. -/
def tmpDir (uuid : String) : List String := ["tmp", uuid]

/-- Creation of the staging directory (fs::create_dir_all, line 78). -/
def mkTmpDir (uuid : String) (st : State) : State :=
  { st with dirs := fun d => if d = tmpDir uuid then true else st.dirs d }

/-- Recursive removal of the staging directory and its contents, as
tokio remove_dir_all in the Drop impl of TempDirGuard (lines 34 to 50). -/
def removeTmp (uuid : String) (st : State) : State :=
  { files := fun p => if p.dir = tmpDir uuid then none else st.files p,
    dirs := fun d => if d = tmpDir uuid then false else st.dirs d }

/-- Every exit of run_image_command taken after the guard was armed (line
83) drops the guard: the removal is attempted and, when it succeeds
(removeOk), the staging directory disappears; the run result r is returned
unchanged either way, since removal failure is only logged. -/
def finish (uuid : String) (removeOk : Bool) (r : Except Err Unit)
    (st : State) (tr : List Event) : Except Err Unit × State × List Event :=
  (r, if removeOk then removeTmp uuid st else st, tr)

/-- The containerized-environment signal of lib.rs line 61: the
CONTAINERIZED variable compares equal to the literal strings true or 1;
env is none when the variable is unset or not readable as unicode
(std::env::var returns Err in both cases). -/
def containerized (env : Option String) : Bool :=
  env == some "true" || env == some "1"

/-- The message of the ensure at lib.rs lines 62 to 65. -/
def containerizedMsg : String :=
  "run_image_command: generating bmap file is not supported in containerized environments."

/-- The message of the ensure at lib.rs lines 68 to 72, naming the image
path. -/
def notFoundMsg (p : Path) : String :=
  "run_image_command: image doesn" ++ String.singleton (Char.ofNat 39)
    ++ "t exist " ++ p.render

/-- Staging (lib.rs lines 85 to 102): place the working copy of the image
into the staging directory.  A compressed source is copied with
std::fs::copy (line 93) and decompressed in place, and the compression
suffix is stripped from both the staged name and the destination path
(set_extension on line 95); a plain source is copied with the sparse-aware
libfs::copy_file (line 98).  Returns the staged path, the corrected
destination path and the staged content, together with the updated
filesystem and copy trace.  The decompressed-path naming (strip the codec
suffix) is modelled from the spec, the adapter sources being absent. -/
def stage (ops : Ops) (uuid : String) (image_file : Path)
    (srcContent : Content) (st : State) :
    Except Err (Path × Path × Content) × State × List Event :=
  let tmp_image_file : Path := ⟨tmpDir uuid, image_file.fname⟩
  match Compression.from_file image_file with
  | some source_compression =>
    let st := st.write tmp_image_file srcContent
    let tr := [Event.plainCopy image_file tmp_image_file]
    match ops.decode source_compression srcContent with
    | .error e => (.error e, st, tr)
    | .ok plain =>
      let tmp2 : Path := ⟨tmpDir uuid, stripExt image_file.fname⟩
      (.ok (tmp2, ⟨image_file.dir, stripExt image_file.fname⟩, plain),
        st.write tmp2 plain, tr)
  | none =>
    (.ok (tmp_image_file, image_file, srcContent),
      st.write tmp_image_file srcContent,
      [Event.sparseCopy image_file tmp_image_file])

/-- Bmap emission (lib.rs lines 107 to 129): generate the block map for
the staged image at the staged path plus a .bmap suffix, then copy it with
std::fs::copy next to the original image (parent of image_file joined
with the bmap file name). -/
def emitBmap (ops : Ops) (uuid : String) (image_file tmp_image_file : Path)
    (mutated : Content) (st : State) :
    Except Err Unit × State × List Event :=
  let tmp_bmap : Path := ⟨tmpDir uuid, tmp_image_file.fname ++ ".bmap"⟩
  match ops.bmapOf mutated with
  | .error e => (.error e, st, [])
  | .ok b =>
    let st := st.write tmp_bmap b
    let target_bmap : Path := ⟨image_file.dir, tmp_bmap.fname⟩
    (.ok (), st.write target_bmap b, [Event.plainCopy tmp_bmap target_bmap])

/-- Output emission (lib.rs lines 131 to 149): with a target compression,
compress the staged image (the compressed name appending the codec
extension is modelled from the spec), point the destination file name at
the compressed name (set_file_name, line 134) and copy with std::fs::copy;
without one, copy the plain staged image to the destination with the
sparse-aware libfs::copy_file (line 145). -/
def emitImage (ops : Ops) (uuid : String)
    (dest_image_file tmp_image_file : Path) (mutated : Content)
    (target_compression : Option Compression) (st : State) :
    Except Err Unit × State × List Event :=
  match target_compression with
  | some c =>
    match ops.encode c mutated with
    | .error e => (.error e, st, [])
    | .ok packed =>
      let tmp2 : Path := ⟨tmpDir uuid, tmp_image_file.fname ++ "." ++ c.ext⟩
      let st := st.write tmp2 packed
      let dest2 : Path := ⟨dest_image_file.dir, tmp2.fname⟩
      (.ok (), st.write dest2 packed, [Event.plainCopy tmp2 dest2])
  | none =>
    (.ok (), st.write dest_image_file mutated,
      [Event.sparseCopy tmp_image_file dest_image_file])

/-- run_image_command (lib.rs lines 52 to 152).  In order: the
containerized-bmap precondition (line 61), the source existence check
(line 68), destination initialised to the source path (line 74), staging
directory creation (line 78) and guard arming (line 83), staging (lines
85 to 102), the caller-supplied mutation on the staged path (line 105),
optional bmap emission (lines 107 to 129), output emission (lines 131 to
149).  Every exit after the guard is armed goes through finish, which
embeds the Drop of TempDirGuard. -/
def run_image_command (ops : Ops) (env : Option String) (uuid : String)
    (removeOk : Bool) (image_file : Path) (generate_bmap : Bool)
    (target_compression : Option Compression)
    (command : Content → Except Err Content) (st : State) :
    Except Err Unit × State × List Event :=
  if containerized env && generate_bmap then
    (.error containerizedMsg, st, [])
  else
    match st.files image_file with
    | none => (.error (notFoundMsg image_file), st, [])
    | some srcContent =>
      let st1 := mkTmpDir uuid st
      match stage ops uuid image_file srcContent st1 with
      | (.error e, st2, tr) => finish uuid removeOk (.error e) st2 tr
      | (.ok (tmp_image_file, dest_image_file, staged), st2, tr) =>
        match command staged with
        | .error e => finish uuid removeOk (.error e) st2 tr
        | .ok mutated =>
          let st3 := st2.write tmp_image_file mutated
          match
            (if generate_bmap then
              emitBmap ops uuid image_file tmp_image_file mutated st3
            else (.ok (), st3, [])) with
          | (.error e, st4, tr2) =>
            finish uuid removeOk (.error e) st4 (tr ++ tr2)
          | (.ok (), st4, tr2) =>
            match emitImage ops uuid dest_image_file tmp_image_file mutated
                target_compression st4 with
            | (.error e, st5, tr3) =>
              finish uuid removeOk (.error e) st5 (tr ++ tr2 ++ tr3)
            | (.ok (), st5, tr3) =>
              finish uuid removeOk (.ok ()) st5 (tr ++ tr2 ++ tr3)

/-- The name the staged image carries inside the workspace: the source
file name, with the compression suffix stripped when the source is
compressed. -/
def stagedName (image_file : Path) : String :=
  match Compression.from_file image_file with
  | some _ => stripExt image_file.fname
  | none => image_file.fname

/-- The final destination path of the output image, as run_image_command
computes it: the directory of the source image, with the staged name plus
the target codec extension when compression is requested, the plain
staged name otherwise. -/
def destPath (image_file : Path) (tc : Option Compression) : Path :=
  match tc with
  | some c => ⟨image_file.dir, stagedName image_file ++ "." ++ c.ext⟩
  | none => ⟨image_file.dir, stagedName image_file⟩

/-- The destination path of the bmap side-car file: the directory of the
source image, file name the staged name plus a .bmap suffix. -/
def bmapDest (image_file : Path) : Path :=
  ⟨image_file.dir, stagedName image_file ++ ".bmap"⟩

/-- Sample collaborators used by the concrete witnesses: decoding and
encoding tag the content with the codec, zstd encoding fails, bmap
generation tags the content. -/
def sampleOps : Ops where
  decode := fun c s => .ok ("d" ++ c.ext ++ ":" ++ s)
  encode := fun c s =>
    match c with
    | .zstd => .error "zstd encode failed"
    | _ => .ok ("e" ++ c.ext ++ ":" ++ s)
  bmapOf := fun s => .ok ("bmap:" ++ s)

/-- A sample one-file filesystem for the concrete witnesses. -/
def oneFile (p : Path) (c : Content) : State :=
  { files := fun q => if q = p then some c else none,
    dirs := fun _ => false }

theorem Path.ne_of_dir_ne {p q : Path} (h : p.dir ≠ q.dir) : p ≠ q :=
  fun hpq => h (congrArg Path.dir hpq)

theorem State.write_files_ne (st : State) (q p : Path) (c : Content)
    (h : p ≠ q) : (st.write q c).files p = st.files p := by
  simp [State.write, h]

theorem State.write_files_self (st : State) (q : Path) (c : Content) :
    (st.write q c).files q = some c := by
  simp [State.write]

/-- Staging only writes inside the staging directory. -/
theorem stage_files_frame (ops : Ops) (uuid : String) (image_file : Path)
    (src : Content) (st : State) (p : Path) (hp : p.dir ≠ tmpDir uuid) :
    ((stage ops uuid image_file src st).2.1).files p = st.files p := by
  have hne : ∀ f : String, p ≠ (⟨tmpDir uuid, f⟩ : Path) :=
    fun f => Path.ne_of_dir_ne hp
  unfold stage
  split
  · split
    · simp [State.write_files_ne _ _ _ _ (hne _)]
    · simp [State.write_files_ne _ _ _ _ (hne _)]
  · simp [State.write_files_ne _ _ _ _ (hne _)]

/-- Staging never touches the directory map. -/
theorem stage_dirs (ops : Ops) (uuid : String) (image_file : Path)
    (src : Content) (st : State) :
    ((stage ops uuid image_file src st).2.1).dirs = st.dirs := by
  unfold stage
  split
  · split <;> simp [State.write]
  · simp [State.write]

/-- When staging succeeds, the staged path lives in the staging directory
under the staged name, and the corrected destination is the source
directory joined with the staged name. -/
theorem stage_ok_shape (ops : Ops) (uuid : String) (image_file : Path)
    (src : Content) (st : State) (tmp dst : Path) (staged : Content)
    (st2 : State) (tr : List Event)
    (h : stage ops uuid image_file src st = (.ok (tmp, dst, staged), st2, tr)) :
    tmp = ⟨tmpDir uuid, stagedName image_file⟩
    ∧ dst = ⟨image_file.dir, stagedName image_file⟩ := by
  unfold stage at h
  unfold stagedName
  cases hc : Compression.from_file image_file with
  | none =>
    simp only [hc] at h
    simp only [Prod.mk.injEq, Except.ok.injEq] at h
    exact ⟨h.1.1.symm, h.1.2.1.symm⟩
  | some c =>
    simp only [hc] at h
    cases hd : ops.decode c src with
    | error e => simp only [hd] at h; simp at h
    | ok plain =>
      simp only [hd] at h
      simp only [Prod.mk.injEq, Except.ok.injEq] at h
      exact ⟨h.1.1.symm, h.1.2.1.symm⟩

/-- Dropping the guard never changes the run result, and when removal
succeeds no file outside the staging directory is touched by it. -/
theorem finish_files_frame (uuid : String) (rk : Bool) (r : Except Err Unit)
    (st : State) (tr : List Event) (p : Path) (hp : p.dir ≠ tmpDir uuid) :
    ((finish uuid rk r st tr).2.1).files p = st.files p := by
  unfold finish removeTmp
  split <;> simp [hp]

/-- Bmap emission writes only inside the staging directory and at the
bmap destination next to the source image. -/
theorem emitBmap_files_frame (ops : Ops) (uuid : String)
    (image_file tmp : Path) (mutated : Content) (st : State) (p : Path)
    (hp1 : p.dir ≠ tmpDir uuid)
    (hp2 : p ≠ ⟨image_file.dir, tmp.fname ++ ".bmap"⟩) :
    ((emitBmap ops uuid image_file tmp mutated st).2.1).files p
      = st.files p := by
  unfold emitBmap
  cases hb : ops.bmapOf mutated with
  | error e => rfl
  | ok b =>
    simp only
    rw [State.write_files_ne _ _ _ _ hp2,
      State.write_files_ne _ _ _ _ (Path.ne_of_dir_ne hp1)]

/-- Output emission writes only inside the staging directory and at the
final destination path. -/
theorem emitImage_files_frame (ops : Ops) (uuid : String)
    (dst tmp : Path) (mutated : Content) (tc : Option Compression)
    (st : State) (p : Path)
    (hp1 : p.dir ≠ tmpDir uuid)
    (hp2 : ∀ c, tc = some c → p ≠ ⟨dst.dir, tmp.fname ++ "." ++ Compression.ext c⟩)
    (hp3 : tc = none → p ≠ dst) :
    ((emitImage ops uuid dst tmp mutated tc st).2.1).files p
      = st.files p := by
  unfold emitImage
  cases tc with
  | none =>
    simp only
    rw [State.write_files_ne _ _ _ _ (hp3 rfl)]
  | some c =>
    cases he : ops.encode c mutated with
    | error e => simp [he]
    | ok packed =>
      simp only [he]
      rw [State.write_files_ne _ _ _ _ (hp2 c rfl),
        State.write_files_ne _ _ _ _ (Path.ne_of_dir_ne hp1)]

/-- Once run_image_command passes its two precondition checks, every exit
path of the remainder, error or success, goes through finish, that is,
through the drop of the TempDirGuard; the result, state before removal
and trace do not depend on whether removal succeeds. -/
theorem run_shape (ops : Ops) (env : Option String) (uuid : String)
    (image_file : Path) (gb : Bool) (tc : Option Compression)
    (cmd : Content → Except Err Content) (st : State) (c0 : Content)
    (hctr : (containerized env && gb) = false)
    (hsrc : st.files image_file = some c0) :
    ∃ r s tr, ∀ removeOk,
      run_image_command ops env uuid removeOk image_file gb tc cmd st
        = finish uuid removeOk r s tr := by
  rcases hst : stage ops uuid image_file c0 (mkTmpDir uuid st) with ⟨r, st2, tr⟩
  cases r with
  | error e =>
    exact ⟨.error e, st2, tr, fun rk => by
      simp [run_image_command, hctr, hsrc, hst]⟩
  | ok v =>
    obtain ⟨tmp, dst, staged⟩ := v
    cases hcmd : cmd staged with
    | error e =>
      exact ⟨.error e, st2, tr, fun rk => by
        simp [run_image_command, hctr, hsrc, hst, hcmd]⟩
    | ok mutated =>
      cases gb with
      | false =>
        rcases he : emitImage ops uuid dst tmp mutated tc
            (st2.write tmp mutated) with ⟨re, st5, tr3⟩
        cases re with
        | error e =>
          exact ⟨.error e, st5, tr ++ tr3, fun rk => by
            simp [run_image_command, hctr, hsrc, hst, hcmd, he]⟩
        | ok u =>
          cases u
          exact ⟨.ok (), st5, tr ++ tr3, fun rk => by
            simp [run_image_command, hctr, hsrc, hst, hcmd, he]⟩
      | true =>
        rcases hb : emitBmap ops uuid image_file tmp mutated
            (st2.write tmp mutated) with ⟨rb, st4, tr2⟩
        cases rb with
        | error e =>
          exact ⟨.error e, st4, tr ++ tr2, fun rk => by
            simp [run_image_command, hctr, hsrc, hst, hcmd, hb]⟩
        | ok u =>
          cases u
          rcases he : emitImage ops uuid dst tmp mutated tc st4 with
            ⟨re, st5, tr3⟩
          cases re with
          | error e =>
            exact ⟨.error e, st5, tr ++ tr2 ++ tr3, fun rk => by
              simp [run_image_command, hctr, hsrc, hst, hcmd, hb, he]⟩
          | ok u =>
            cases u
            exact ⟨.ok (), st5, tr ++ tr2 ++ tr3, fun rk => by
              simp [run_image_command, hctr, hsrc, hst, hcmd, hb, he]⟩

/-- C3: for every run that passes the precondition checks and so creates
the staging directory, every exit path drops the guard: with removal
succeeding, the staging directory and every file under it are gone from
the final state; and the run result is the same whether removal succeeds
or fails, so a removal failure never changes the primary result. -/
theorem workspace_always_removed (ops : Ops) (env : Option String)
    (uuid : String) (image_file : Path) (gb : Bool)
    (tc : Option Compression) (cmd : Content → Except Err Content)
    (st : State) (c0 : Content)
    (hctr : (containerized env && gb) = false)
    (hsrc : st.files image_file = some c0) :
    (∀ rk1 rk2,
      (run_image_command ops env uuid rk1 image_file gb tc cmd st).1
        = (run_image_command ops env uuid rk2 image_file gb tc cmd st).1)
    ∧ ((run_image_command ops env uuid true image_file gb tc cmd st).2.1).dirs
        (tmpDir uuid) = false
    ∧ ∀ p, p.dir = tmpDir uuid →
        ((run_image_command ops env uuid true image_file gb tc cmd st).2.1).files
          p = none := by
  obtain ⟨r, s, tr, hr⟩ :=
    run_shape ops env uuid image_file gb tc cmd st c0 hctr hsrc
  refine ⟨?_, ?_, ?_⟩
  · intro rk1 rk2
    rw [hr rk1, hr rk2]
    rfl
  · rw [hr true]
    simp [finish, removeTmp]
  · intro p hp
    rw [hr true]
    simp [finish, removeTmp, hp]

/-- Witness for C3: a concrete run on a plain image; the result is
independent of removal success and the staging directory is gone. -/
theorem workspace_always_removed_witness :
    (containerized none && false) = false
    ∧ (oneFile ⟨["d"], "a.wic"⟩ "S").files ⟨["d"], "a.wic"⟩ = some "S"
    ∧ ((run_image_command sampleOps none "u" true ⟨["d"], "a.wic"⟩ false none
          (fun c => .ok c) (oneFile ⟨["d"], "a.wic"⟩ "S")).1
        = (run_image_command sampleOps none "u" false ⟨["d"], "a.wic"⟩ false none
          (fun c => .ok c) (oneFile ⟨["d"], "a.wic"⟩ "S")).1)
    ∧ ((run_image_command sampleOps none "u" true ⟨["d"], "a.wic"⟩ false none
          (fun c => .ok c) (oneFile ⟨["d"], "a.wic"⟩ "S")).2.1).files
        ⟨tmpDir "u", "a.wic"⟩ = none :=
  ⟨by decide, by decide,
    (workspace_always_removed sampleOps none "u" ⟨["d"], "a.wic"⟩ false none
      (fun c => .ok c) (oneFile ⟨["d"], "a.wic"⟩ "S") "S" (by decide)
      (by decide)).1 true false,
    (workspace_always_removed sampleOps none "u" ⟨["d"], "a.wic"⟩ false none
      (fun c => .ok c) (oneFile ⟨["d"], "a.wic"⟩ "S") "S" (by decide)
      (by decide)).2.2 ⟨tmpDir "u", "a.wic"⟩ rfl⟩

/-- General frame property of a run: every path outside the staging
directory other than the final destination path and the bmap destination
path holds the same content after the run as before, on every exit path
and independently of removal success. -/
theorem run_files_frame (ops : Ops) (env : Option String) (uuid : String)
    (removeOk : Bool) (image_file : Path) (gb : Bool)
    (tc : Option Compression) (cmd : Content → Except Err Content)
    (st : State) (p : Path)
    (hp1 : p.dir ≠ tmpDir uuid)
    (hp2 : p ≠ destPath image_file tc)
    (hp3 : p ≠ bmapDest image_file) :
    ((run_image_command ops env uuid removeOk image_file gb tc cmd st).2.1).files p
      = st.files p := by
  by_cases hc : (containerized env && gb) = true
  · simp [run_image_command, hc]
  · rw [Bool.not_eq_true] at hc
    cases hsrc : st.files image_file with
    | none => simp [run_image_command, hc, hsrc]
    | some c0 =>
      rcases hst : stage ops uuid image_file c0 (mkTmpDir uuid st) with
        ⟨r, st2, tr⟩
      have hst2 : st2.files p = st.files p := by
        have hfr := stage_files_frame ops uuid image_file c0 (mkTmpDir uuid st) p hp1
        rw [hst] at hfr
        exact hfr
      cases r with
      | error e =>
        have hrun : run_image_command ops env uuid removeOk image_file gb tc cmd st
            = finish uuid removeOk (.error e) st2 tr := by
          simp [run_image_command, hc, hsrc, hst]
        rw [hrun, finish_files_frame _ _ _ _ _ _ hp1]
        exact hst2
      | ok v =>
        obtain ⟨tmp, dst, staged⟩ := v
        obtain ⟨htmp, hdst⟩ := stage_ok_shape _ _ _ _ _ _ _ _ _ _ hst
        subst htmp hdst
        cases hcmd : cmd staged with
        | error e =>
          have hrun : run_image_command ops env uuid removeOk image_file gb tc cmd st
              = finish uuid removeOk (.error e) st2 tr := by
            simp [run_image_command, hc, hsrc, hst, hcmd]
          rw [hrun, finish_files_frame _ _ _ _ _ _ hp1]
          exact hst2
        | ok mutated =>
          have h3 : ((st2.write ⟨tmpDir uuid, stagedName image_file⟩ mutated)).files p
              = st.files p := by
            rw [State.write_files_ne _ _ _ _ (Path.ne_of_dir_ne hp1)]
            exact hst2
          have hpb : p ≠ (⟨image_file.dir,
              (⟨tmpDir uuid, stagedName image_file⟩ : Path).fname ++ ".bmap"⟩ : Path) := hp3
          have hpi2 : ∀ c, tc = some c →
              p ≠ (⟨(⟨image_file.dir, stagedName image_file⟩ : Path).dir,
                (⟨tmpDir uuid, stagedName image_file⟩ : Path).fname ++ "."
                  ++ Compression.ext c⟩ : Path) := by
            intro c hc1
            rw [hc1] at hp2
            exact hp2
          have hpi3 : tc = none →
              p ≠ (⟨image_file.dir, stagedName image_file⟩ : Path) := by
            intro h
            rw [h] at hp2
            exact hp2
          cases gb with
          | false =>
            rcases he : emitImage ops uuid ⟨image_file.dir, stagedName image_file⟩
                ⟨tmpDir uuid, stagedName image_file⟩ mutated tc
                (st2.write ⟨tmpDir uuid, stagedName image_file⟩ mutated) with
              ⟨re, st5, tr3⟩
            have h5 : st5.files p = st.files p := by
              have hfr := emitImage_files_frame ops uuid
                ⟨image_file.dir, stagedName image_file⟩
                ⟨tmpDir uuid, stagedName image_file⟩ mutated tc
                (st2.write ⟨tmpDir uuid, stagedName image_file⟩ mutated) p
                hp1 hpi2 hpi3
              rw [he] at hfr
              rw [hfr]
              exact h3
            cases re with
            | error e =>
              have hrun : run_image_command ops env uuid removeOk image_file
                  false tc cmd st = finish uuid removeOk (.error e) st5 (tr ++ tr3) := by
                simp [run_image_command, hc, hsrc, hst, hcmd, he]
              rw [hrun, finish_files_frame _ _ _ _ _ _ hp1]
              exact h5
            | ok u =>
              cases u
              have hrun : run_image_command ops env uuid removeOk image_file
                  false tc cmd st = finish uuid removeOk (.ok ()) st5 (tr ++ tr3) := by
                simp [run_image_command, hc, hsrc, hst, hcmd, he]
              rw [hrun, finish_files_frame _ _ _ _ _ _ hp1]
              exact h5
          | true =>
            rcases hb : emitBmap ops uuid image_file
                ⟨tmpDir uuid, stagedName image_file⟩ mutated
                (st2.write ⟨tmpDir uuid, stagedName image_file⟩ mutated) with
              ⟨rb, st4, tr2⟩
            have h4 : st4.files p = st.files p := by
              have hfr := emitBmap_files_frame ops uuid image_file
                ⟨tmpDir uuid, stagedName image_file⟩ mutated
                (st2.write ⟨tmpDir uuid, stagedName image_file⟩ mutated) p hp1 hpb
              rw [hb] at hfr
              rw [hfr]
              exact h3
            cases rb with
            | error e =>
              have hrun : run_image_command ops env uuid removeOk image_file
                  true tc cmd st = finish uuid removeOk (.error e) st4 (tr ++ tr2) := by
                simp [run_image_command, hc, hsrc, hst, hcmd, hb]
              rw [hrun, finish_files_frame _ _ _ _ _ _ hp1]
              exact h4
            | ok u =>
              cases u
              rcases he : emitImage ops uuid ⟨image_file.dir, stagedName image_file⟩
                  ⟨tmpDir uuid, stagedName image_file⟩ mutated tc st4 with
                ⟨re, st5, tr3⟩
              have h5 : st5.files p = st.files p := by
                have hfr := emitImage_files_frame ops uuid
                  ⟨image_file.dir, stagedName image_file⟩
                  ⟨tmpDir uuid, stagedName image_file⟩ mutated tc st4 p
                  hp1 hpi2 hpi3
                rw [he] at hfr
                rw [hfr]
                exact h4
              cases re with
              | error e =>
                have hrun : run_image_command ops env uuid removeOk image_file
                    true tc cmd st
                    = finish uuid removeOk (.error e) st5 (tr ++ tr2 ++ tr3) := by
                  simp [run_image_command, hc, hsrc, hst, hcmd, hb, he]
                rw [hrun, finish_files_frame _ _ _ _ _ _ hp1]
                exact h5
              | ok u =>
                cases u
                have hrun : run_image_command ops env uuid removeOk image_file
                    true tc cmd st
                    = finish uuid removeOk (.ok ()) st5 (tr ++ tr2 ++ tr3) := by
                  simp [run_image_command, hc, hsrc, hst, hcmd, hb, he]
                rw [hrun, finish_files_frame _ _ _ _ _ _ hp1]
                exact h5

/-- C1 counterexample: with a plain (uncompressed) source and no target
compression requested, the destination path equals the source path, so
the final copy-back of run_image_command overwrites the original source
image with the mutated content: the source is opened for writing and its
content changes, on a successful run. -/
theorem source_overwritten_counterexample :
    (oneFile ⟨["data"], "image.wic"⟩ "SRC").files ⟨["data"], "image.wic"⟩
      = some "SRC"
    ∧ (run_image_command sampleOps none "u" true ⟨["data"], "image.wic"⟩ false
        none (fun c => .ok (c ++ "!"))
        (oneFile ⟨["data"], "image.wic"⟩ "SRC")).1 = .ok ()
    ∧ ((run_image_command sampleOps none "u" true ⟨["data"], "image.wic"⟩ false
        none (fun c => .ok (c ++ "!"))
        (oneFile ⟨["data"], "image.wic"⟩ "SRC")).2.1).files
        ⟨["data"], "image.wic"⟩ = some "SRC!" := by
  refine ⟨by decide, by decide, by decide⟩

/-- C1 amended: the original source image is read-only for the run
provided the computed final destination path and the bmap destination
path differ from the source path (as they do whenever a compression
transition renames the output); its content is then unchanged on every
exit path.  When the destination path coincides with the source path, as
with a plain source and no target compression, the output overwrites the
source in place. -/
theorem run_preserves_source (ops : Ops) (env : Option String)
    (uuid : String) (removeOk : Bool) (image_file : Path) (gb : Bool)
    (tc : Option Compression) (cmd : Content → Except Err Content)
    (st : State)
    (h1 : image_file.dir ≠ tmpDir uuid)
    (h2 : destPath image_file tc ≠ image_file)
    (h3 : bmapDest image_file ≠ image_file) :
    ((run_image_command ops env uuid removeOk image_file gb tc cmd st).2.1).files
      image_file = st.files image_file :=
  run_files_frame ops env uuid removeOk image_file gb tc cmd st image_file
    h1 (Ne.symm h2) (Ne.symm h3)

/-- Witness for C1 at a compressed source: the destination drops the
suffix, so it differs from the source and the source is preserved. -/
theorem run_preserves_source_witness :
    (⟨["d"], "image.wic.gz"⟩ : Path).dir ≠ tmpDir "u"
    ∧ destPath ⟨["d"], "image.wic.gz"⟩ none ≠ ⟨["d"], "image.wic.gz"⟩
    ∧ bmapDest ⟨["d"], "image.wic.gz"⟩ ≠ ⟨["d"], "image.wic.gz"⟩
    ∧ ((run_image_command sampleOps none "u" true ⟨["d"], "image.wic.gz"⟩ true
        none (fun c => .ok c) (oneFile ⟨["d"], "image.wic.gz"⟩ "S")).2.1).files
        ⟨["d"], "image.wic.gz"⟩
      = (oneFile ⟨["d"], "image.wic.gz"⟩ "S").files ⟨["d"], "image.wic.gz"⟩ :=
  ⟨by decide, by decide, by decide,
    run_preserves_source sampleOps none "u" true ⟨["d"], "image.wic.gz"⟩ true
      none (fun c => .ok c) (oneFile ⟨["d"], "image.wic.gz"⟩ "S")
      (by decide) (by decide) (by decide)⟩

/-- C2: when the caller-supplied mutation fails, the run aborts at once:
its error is the run result, nothing outside the staging directory was
written (so no bmap and no output appear at any destination that was
empty before), and with removal succeeding the staging directory and its
contents are gone. -/
theorem mutation_failure_aborts (ops : Ops) (env : Option String)
    (uuid : String) (image_file : Path) (gb : Bool)
    (tc : Option Compression) (cmd : Content → Except Err Content)
    (st : State) (c0 : Content) (tmp dst : Path) (staged : Content)
    (e : Err)
    (hctr : (containerized env && gb) = false)
    (hsrc : st.files image_file = some c0)
    (hstage : (stage ops uuid image_file c0 (mkTmpDir uuid st)).1
      = .ok (tmp, dst, staged))
    (hcmd : cmd staged = .error e) :
    (run_image_command ops env uuid true image_file gb tc cmd st).1 = .error e
    ∧ (∀ p, p.dir ≠ tmpDir uuid →
        ((run_image_command ops env uuid true image_file gb tc cmd st).2.1).files p
          = st.files p)
    ∧ (∀ p, p.dir = tmpDir uuid →
        ((run_image_command ops env uuid true image_file gb tc cmd st).2.1).files p
          = none)
    ∧ ((run_image_command ops env uuid true image_file gb tc cmd st).2.1).dirs
        (tmpDir uuid) = false := by
  rcases hst : stage ops uuid image_file c0 (mkTmpDir uuid st) with ⟨r, st2, tr⟩
  rw [hst] at hstage
  simp only at hstage
  subst hstage
  have hrun : run_image_command ops env uuid true image_file gb tc cmd st
      = finish uuid true (.error e) st2 tr := by
    simp [run_image_command, hctr, hsrc, hst, hcmd]
  rw [hrun]
  refine ⟨rfl, ?_, ?_, ?_⟩
  · intro p hp
    have hfr := stage_files_frame ops uuid image_file c0 (mkTmpDir uuid st) p hp
    rw [hst] at hfr
    rw [finish_files_frame uuid true (.error e) st2 tr p hp]
    exact hfr
  · intro p hp
    simp [finish, removeTmp, hp]
  · simp [finish, removeTmp]

/-- Witness for C2: a concrete failing mutation on a plain image, with
the would-be output and bmap destinations empty before and after. -/
theorem mutation_failure_aborts_witness :
    (containerized none && true) = false
    ∧ (oneFile ⟨["d"], "a.wic"⟩ "S").files ⟨["d"], "a.wic"⟩ = some "S"
    ∧ (stage sampleOps "u" ⟨["d"], "a.wic"⟩ "S"
        (mkTmpDir "u" (oneFile ⟨["d"], "a.wic"⟩ "S"))).1
      = .ok (⟨tmpDir "u", "a.wic"⟩, ⟨["d"], "a.wic"⟩, "S")
    ∧ (run_image_command sampleOps none "u" true ⟨["d"], "a.wic"⟩ true none
        (fun _ => .error "boom") (oneFile ⟨["d"], "a.wic"⟩ "S")).1
      = .error "boom"
    ∧ ((run_image_command sampleOps none "u" true ⟨["d"], "a.wic"⟩ true none
        (fun _ => .error "boom") (oneFile ⟨["d"], "a.wic"⟩ "S")).2.1).files
        ⟨["d"], "a.wic.bmap"⟩
      = (oneFile ⟨["d"], "a.wic"⟩ "S").files ⟨["d"], "a.wic.bmap"⟩ :=
  ⟨by decide, by decide, by decide,
    (mutation_failure_aborts sampleOps none "u" ⟨["d"], "a.wic"⟩ true none
      (fun _ => .error "boom") (oneFile ⟨["d"], "a.wic"⟩ "S") "S"
      ⟨tmpDir "u", "a.wic"⟩ ⟨["d"], "a.wic"⟩ "S" "boom" (by decide) (by decide)
      (by decide) (by decide)).1,
    (mutation_failure_aborts sampleOps none "u" ⟨["d"], "a.wic"⟩ true none
      (fun _ => .error "boom") (oneFile ⟨["d"], "a.wic"⟩ "S") "S"
      ⟨tmpDir "u", "a.wic"⟩ ⟨["d"], "a.wic"⟩ "S" "boom" (by decide) (by decide)
      (by decide) (by decide)).2.1 ⟨["d"], "a.wic.bmap"⟩ (by decide)⟩

/-- C4: with the containerized-environment signal active and
generate_bmap requested, run_image_command fails with the precondition
message before touching any filesystem state: the returned state is the
input state unchanged and no copy event occurred, in particular no
workspace directory was created. -/
theorem containerized_bmap_rejected (ops : Ops) (env : Option String)
    (uuid : String) (removeOk : Bool) (image_file : Path)
    (tc : Option Compression) (cmd : Content → Except Err Content)
    (st : State) (h : containerized env = true) :
    run_image_command ops env uuid removeOk image_file true tc cmd st
      = (.error containerizedMsg, st, []) := by
  simp [run_image_command, h]

/-- Witness for C4 at a concrete containerized run. -/
theorem containerized_bmap_rejected_witness :
    containerized (some "1") = true
    ∧ run_image_command sampleOps (some "1") "u" true ⟨["d"], "a.wic"⟩ true
        none (fun c => .ok c) (oneFile ⟨["d"], "a.wic"⟩ "S")
      = (.error containerizedMsg, oneFile ⟨["d"], "a.wic"⟩ "S", []) :=
  ⟨by decide,
    containerized_bmap_rejected sampleOps (some "1") "u" true ⟨["d"], "a.wic"⟩
      none (fun c => .ok c) (oneFile ⟨["d"], "a.wic"⟩ "S") (by decide)⟩

/-- C5: when the source image does not exist and the containerized
precondition does not fire, run_image_command fails immediately with the
message naming the exact source path, the state is returned unchanged and
no copy event occurred, in particular no workspace directory was
created. -/
theorem missing_source_rejected (ops : Ops) (env : Option String)
    (uuid : String) (removeOk : Bool) (image_file : Path)
    (generate_bmap : Bool) (tc : Option Compression)
    (cmd : Content → Except Err Content) (st : State)
    (hctr : (containerized env && generate_bmap) = false)
    (hsrc : st.files image_file = none) :
    run_image_command ops env uuid removeOk image_file generate_bmap tc cmd st
      = (.error ("run_image_command: image doesn"
          ++ String.singleton (Char.ofNat 39) ++ "t exist "
          ++ image_file.render), st, []) := by
  simp [run_image_command, hctr, hsrc, notFoundMsg]

/-- Witness for C5 at a concrete missing source. -/
theorem missing_source_rejected_witness :
    (containerized none && true) = false
    ∧ (oneFile ⟨["d"], "a.wic"⟩ "S").files ⟨["d"], "b.wic"⟩ = none
    ∧ run_image_command sampleOps none "u" true ⟨["d"], "b.wic"⟩ true none
        (fun c => .ok c) (oneFile ⟨["d"], "a.wic"⟩ "S")
      = (.error ("run_image_command: image doesn"
          ++ String.singleton (Char.ofNat 39) ++ "t exist "
          ++ Path.render ⟨["d"], "b.wic"⟩), oneFile ⟨["d"], "a.wic"⟩ "S", []) :=
  ⟨by decide, by decide,
    missing_source_rejected sampleOps none "u" true ⟨["d"], "b.wic"⟩ true none
      (fun c => .ok c) (oneFile ⟨["d"], "a.wic"⟩ "S") (by decide) (by decide)⟩

/-- C6 counterexample: on a compressed source the staging copy into the
workspace is a plain std::fs::copy event, not a sparse copy: the trace of
a concrete compressed run shows the compressed file staged with
plainCopy (only the final plain-image copy-back is sparse). -/
theorem compressed_staging_not_sparse_counterexample :
    Compression.from_file ⟨["d"], "image.wic.gz"⟩ = some .gzip
    ∧ (run_image_command sampleOps none "u" true ⟨["d"], "image.wic.gz"⟩
        false none (fun c => .ok c) (oneFile ⟨["d"], "image.wic.gz"⟩ "S")).2.2
      = [Event.plainCopy ⟨["d"], "image.wic.gz"⟩ ⟨tmpDir "u", "image.wic.gz"⟩,
         Event.sparseCopy ⟨tmpDir "u", "image.wic"⟩ ⟨["d"], "image.wic"⟩] :=
  ⟨by decide, by decide⟩

/-- C6 amended: on a compressed source, the compressed file is staged
into the workspace with the standard byte copy std::fs::copy (not the
sparse copier), then decompressed in place under the suffix-stripped
name, and the compression suffix is stripped from the eventual
destination path. -/
theorem stage_compressed_plain_copy (ops : Ops) (uuid : String)
    (image_file : Path) (src : Content) (st : State) (c : Compression)
    (plain : Content)
    (hc : Compression.from_file image_file = some c)
    (hd : ops.decode c src = .ok plain) :
    stage ops uuid image_file src st
      = (.ok (⟨tmpDir uuid, stripExt image_file.fname⟩,
          ⟨image_file.dir, stripExt image_file.fname⟩, plain),
         (st.write ⟨tmpDir uuid, image_file.fname⟩ src).write
           ⟨tmpDir uuid, stripExt image_file.fname⟩ plain,
         [Event.plainCopy image_file ⟨tmpDir uuid, image_file.fname⟩]) := by
  simp [stage, hc, hd]

/-- Witness for the amended C6 at a concrete gzip-compressed source. -/
theorem stage_compressed_plain_copy_witness :
    Compression.from_file ⟨["d"], "image.wic.gz"⟩ = some .gzip
    ∧ sampleOps.decode .gzip "S" = .ok "dgz:S"
    ∧ stage sampleOps "u" ⟨["d"], "image.wic.gz"⟩ "S"
        (oneFile ⟨["d"], "image.wic.gz"⟩ "S")
      = (.ok (⟨tmpDir "u", stripExt "image.wic.gz"⟩,
          ⟨["d"], stripExt "image.wic.gz"⟩, "dgz:S"),
         ((oneFile ⟨["d"], "image.wic.gz"⟩ "S").write
            ⟨tmpDir "u", "image.wic.gz"⟩ "S").write
           ⟨tmpDir "u", stripExt "image.wic.gz"⟩ "dgz:S",
         [Event.plainCopy ⟨["d"], "image.wic.gz"⟩ ⟨tmpDir "u", "image.wic.gz"⟩]) :=
  ⟨by decide, by decide,
    stage_compressed_plain_copy sampleOps "u" ⟨["d"], "image.wic.gz"⟩ "S"
      (oneFile ⟨["d"], "image.wic.gz"⟩ "S") .gzip "dgz:S" (by decide) (by decide)⟩

/-- After successful staging and mutation in a bmap-generating run, the
run is the output-emission phase applied to the bmap-extended state, with
the bmap already generated and copied next to the source image. -/
theorem run_with_bmap_eq (ops : Ops) (env : Option String) (uuid : String)
    (removeOk : Bool) (image_file : Path) (tc : Option Compression)
    (cmd : Content → Except Err Content) (st : State) (c0 staged mutated bm : Content)
    (st2 : State) (tr : List Event)
    (hctr : containerized env = false)
    (hsrc : st.files image_file = some c0)
    (hst : stage ops uuid image_file c0 (mkTmpDir uuid st)
      = (.ok (⟨tmpDir uuid, stagedName image_file⟩,
          ⟨image_file.dir, stagedName image_file⟩, staged), st2, tr))
    (hcmd : cmd staged = .ok mutated)
    (hbm : ops.bmapOf mutated = .ok bm) :
    run_image_command ops env uuid removeOk image_file true tc cmd st
      = (match emitImage ops uuid ⟨image_file.dir, stagedName image_file⟩
            ⟨tmpDir uuid, stagedName image_file⟩ mutated tc
            (((st2.write ⟨tmpDir uuid, stagedName image_file⟩ mutated).write
                ⟨tmpDir uuid, stagedName image_file ++ ".bmap"⟩ bm).write
              ⟨image_file.dir, stagedName image_file ++ ".bmap"⟩ bm) with
         | (.error e, st5, tr3) => finish uuid removeOk (.error e) st5
             (tr ++ [Event.plainCopy ⟨tmpDir uuid, stagedName image_file ++ ".bmap"⟩
                 ⟨image_file.dir, stagedName image_file ++ ".bmap"⟩] ++ tr3)
         | (.ok _, st5, tr3) => finish uuid removeOk (.ok ()) st5
             (tr ++ [Event.plainCopy ⟨tmpDir uuid, stagedName image_file ++ ".bmap"⟩
                 ⟨image_file.dir, stagedName image_file ++ ".bmap"⟩] ++ tr3)) := by
  have hbeq : emitBmap ops uuid image_file ⟨tmpDir uuid, stagedName image_file⟩
      mutated (st2.write ⟨tmpDir uuid, stagedName image_file⟩ mutated)
      = (.ok (),
         ((st2.write ⟨tmpDir uuid, stagedName image_file⟩ mutated).write
             ⟨tmpDir uuid, stagedName image_file ++ ".bmap"⟩ bm).write
           ⟨image_file.dir, stagedName image_file ++ ".bmap"⟩ bm,
         [Event.plainCopy ⟨tmpDir uuid, stagedName image_file ++ ".bmap"⟩
           ⟨image_file.dir, stagedName image_file ++ ".bmap"⟩]) := by
    simp [emitBmap, hbm]
  rcases he : emitImage ops uuid ⟨image_file.dir, stagedName image_file⟩
      ⟨tmpDir uuid, stagedName image_file⟩ mutated tc
      (((st2.write ⟨tmpDir uuid, stagedName image_file⟩ mutated).write
          ⟨tmpDir uuid, stagedName image_file ++ ".bmap"⟩ bm).write
        ⟨image_file.dir, stagedName image_file ++ ".bmap"⟩ bm) with ⟨re, st5, tr3⟩
  cases re with
  | error e => simp [run_image_command, hctr, hsrc, hst, hcmd, hbeq, he]
  | ok u =>
    cases u
    simp [run_image_command, hctr, hsrc, hst, hcmd, hbeq, he]

/-- After successful staging and mutation in a run without bmap
generation, the run is the output-emission phase applied directly to the
mutated staged state. -/
theorem run_no_bmap_eq (ops : Ops) (env : Option String) (uuid : String)
    (removeOk : Bool) (image_file : Path) (tc : Option Compression)
    (cmd : Content → Except Err Content) (st : State) (c0 staged mutated : Content)
    (st2 : State) (tr : List Event)
    (hsrc : st.files image_file = some c0)
    (hst : stage ops uuid image_file c0 (mkTmpDir uuid st)
      = (.ok (⟨tmpDir uuid, stagedName image_file⟩,
          ⟨image_file.dir, stagedName image_file⟩, staged), st2, tr))
    (hcmd : cmd staged = .ok mutated) :
    run_image_command ops env uuid removeOk image_file false tc cmd st
      = (match emitImage ops uuid ⟨image_file.dir, stagedName image_file⟩
            ⟨tmpDir uuid, stagedName image_file⟩ mutated tc
            (st2.write ⟨tmpDir uuid, stagedName image_file⟩ mutated) with
         | (.error e, st5, tr3) => finish uuid removeOk (.error e) st5 (tr ++ tr3)
         | (.ok _, st5, tr3) => finish uuid removeOk (.ok ()) st5 (tr ++ tr3)) := by
  rcases he : emitImage ops uuid ⟨image_file.dir, stagedName image_file⟩
      ⟨tmpDir uuid, stagedName image_file⟩ mutated tc
      (st2.write ⟨tmpDir uuid, stagedName image_file⟩ mutated) with ⟨re, st5, tr3⟩
  cases re with
  | error e => simp [run_image_command, hsrc, hst, hcmd, he]
  | ok u =>
    cases u
    simp [run_image_command, hsrc, hst, hcmd, he]

/-- C7 counterexample: a successful bmap run on image.wic.gz with target
compression xz produces the output image image.wic.xz, but the bmap file
is written as image.wic.bmap (the staged name plus .bmap), not as
image.wic.xz.bmap (the output file name plus .bmap) required by the
claim. -/
theorem bmap_output_naming_counterexample :
    (run_image_command sampleOps none "u" true ⟨["d"], "image.wic.gz"⟩ true
        (some .xz) (fun c => .ok c) (oneFile ⟨["d"], "image.wic.gz"⟩ "S")).1
      = .ok ()
    ∧ ((run_image_command sampleOps none "u" true ⟨["d"], "image.wic.gz"⟩ true
        (some .xz) (fun c => .ok c) (oneFile ⟨["d"], "image.wic.gz"⟩ "S")).2.1).files
        ⟨["d"], "image.wic.xz"⟩ = some "exz:dgz:S"
    ∧ ((run_image_command sampleOps none "u" true ⟨["d"], "image.wic.gz"⟩ true
        (some .xz) (fun c => .ok c) (oneFile ⟨["d"], "image.wic.gz"⟩ "S")).2.1).files
        ⟨["d"], "image.wic.xz.bmap"⟩ = none
    ∧ ((run_image_command sampleOps none "u" true ⟨["d"], "image.wic.gz"⟩ true
        (some .xz) (fun c => .ok c) (oneFile ⟨["d"], "image.wic.gz"⟩ "S")).2.1).files
        ⟨["d"], "image.wic.bmap"⟩ = some "bmap:dgz:S" :=
  ⟨by decide, by decide, by decide, by decide⟩

/-- C7 amended: in a bmap-generating run that passes staging and the
mutation, a block map of the staged image is produced and copied with
std::fs::copy (a plain, not sparse, copy event) into the directory of the
source image, which is also the directory of the final output image,
under the name given by the staged image file name (the source file name
with any compression suffix stripped) plus a .bmap suffix; this equals
the output file name plus .bmap exactly when no target compression
renames the output. -/
theorem bmap_written_next_to_source (ops : Ops) (env : Option String)
    (uuid : String) (image_file : Path) (tc : Option Compression)
    (cmd : Content → Except Err Content) (st : State)
    (c0 : Content) (tmp dst : Path) (staged mutated bm : Content)
    (hctr : containerized env = false)
    (himg : image_file.dir ≠ tmpDir uuid)
    (hne : destPath image_file tc ≠ bmapDest image_file)
    (hsrc : st.files image_file = some c0)
    (hstage : (stage ops uuid image_file c0 (mkTmpDir uuid st)).1
      = .ok (tmp, dst, staged))
    (hcmd : cmd staged = .ok mutated)
    (hbm : ops.bmapOf mutated = .ok bm) :
    ((run_image_command ops env uuid true image_file true tc cmd st).2.1).files
        (bmapDest image_file) = some bm
    ∧ Event.plainCopy ⟨tmpDir uuid, stagedName image_file ++ ".bmap"⟩
        (bmapDest image_file)
      ∈ (run_image_command ops env uuid true image_file true tc cmd st).2.2 := by
  rcases hst : stage ops uuid image_file c0 (mkTmpDir uuid st) with ⟨r, st2, tr⟩
  rw [hst] at hstage
  simp only at hstage
  subst hstage
  obtain ⟨htmp, hdst⟩ := stage_ok_shape _ _ _ _ _ _ _ _ _ _ hst
  subst htmp
  subst hdst
  have hrun := run_with_bmap_eq ops env uuid true image_file tc cmd st c0
    staged mutated bm st2 tr hctr hsrc hst hcmd hbm
  rcases he : emitImage ops uuid ⟨image_file.dir, stagedName image_file⟩
      ⟨tmpDir uuid, stagedName image_file⟩ mutated tc
      (((st2.write ⟨tmpDir uuid, stagedName image_file⟩ mutated).write
          ⟨tmpDir uuid, stagedName image_file ++ ".bmap"⟩ bm).write
        ⟨image_file.dir, stagedName image_file ++ ".bmap"⟩ bm) with ⟨re, st5, tr3⟩
  rw [he] at hrun
  have h5 : st5.files (bmapDest image_file) = some bm := by
    have hfr := emitImage_files_frame ops uuid
      ⟨image_file.dir, stagedName image_file⟩
      ⟨tmpDir uuid, stagedName image_file⟩ mutated tc
      (((st2.write ⟨tmpDir uuid, stagedName image_file⟩ mutated).write
          ⟨tmpDir uuid, stagedName image_file ++ ".bmap"⟩ bm).write
        ⟨image_file.dir, stagedName image_file ++ ".bmap"⟩ bm)
      (bmapDest image_file) himg
      (by
        intro c hc1
        rw [hc1] at hne
        exact Ne.symm hne)
      (by
        intro h
        rw [h] at hne
        exact Ne.symm hne)
    rw [he] at hfr
    rw [hfr]
    exact State.write_files_self _ _ _
  cases re with
  | error e =>
    dsimp only at hrun
    rw [hrun]
    constructor
    · rw [finish_files_frame _ _ _ _ _ (bmapDest image_file)
        (show (bmapDest image_file).dir ≠ tmpDir uuid from himg)]
      exact h5
    · simp [finish, bmapDest]
  | ok u =>
    cases u
    dsimp only at hrun
    rw [hrun]
    constructor
    · rw [finish_files_frame _ _ _ _ _ (bmapDest image_file)
        (show (bmapDest image_file).dir ≠ tmpDir uuid from himg)]
      exact h5
    · simp [finish, bmapDest]

/-- Witness for the amended C7: concrete gzip source with xz target. -/
theorem bmap_written_next_to_source_witness :
    containerized none = false
    ∧ destPath ⟨["d"], "image.wic.gz"⟩ (some .xz) ≠ bmapDest ⟨["d"], "image.wic.gz"⟩
    ∧ (stage sampleOps "u" ⟨["d"], "image.wic.gz"⟩ "S"
        (mkTmpDir "u" (oneFile ⟨["d"], "image.wic.gz"⟩ "S"))).1
      = .ok (⟨tmpDir "u", "image.wic"⟩, ⟨["d"], "image.wic"⟩, "dgz:S")
    ∧ ((run_image_command sampleOps none "u" true ⟨["d"], "image.wic.gz"⟩ true
        (some .xz) (fun c => .ok c) (oneFile ⟨["d"], "image.wic.gz"⟩ "S")).2.1).files
        (bmapDest ⟨["d"], "image.wic.gz"⟩) = some "bmap:dgz:S" :=
  ⟨by decide, by decide, by decide,
    (bmap_written_next_to_source sampleOps none "u" ⟨["d"], "image.wic.gz"⟩
      (some .xz) (fun c => .ok c) (oneFile ⟨["d"], "image.wic.gz"⟩ "S") "S"
      ⟨tmpDir "u", "image.wic"⟩ ⟨["d"], "image.wic"⟩ "dgz:S" "dgz:S" "bmap:dgz:S"
      (by decide) (by decide) (by decide) (by decide) (by decide) (by decide)
      (by decide)).1⟩

/-- C10: in a bmap-generating run, the bmap file is generated and copied
to its destination before the compression and final copy-back step; when
the compression step then fails, the run reports that failure, yet the
destination bmap file is already in place and is not rolled back, leaving
a partial artifact set. -/
theorem bmap_survives_failed_compression (ops : Ops) (env : Option String)
    (uuid : String) (image_file : Path) (c : Compression)
    (cmd : Content → Except Err Content) (st : State)
    (c0 : Content) (tmp dst : Path) (staged mutated bm : Content) (e : Err)
    (hctr : containerized env = false)
    (himg : image_file.dir ≠ tmpDir uuid)
    (hsrc : st.files image_file = some c0)
    (hstage : (stage ops uuid image_file c0 (mkTmpDir uuid st)).1
      = .ok (tmp, dst, staged))
    (hcmd : cmd staged = .ok mutated)
    (hbm : ops.bmapOf mutated = .ok bm)
    (henc : ops.encode c mutated = .error e) :
    (run_image_command ops env uuid true image_file true (some c) cmd st).1
      = .error e
    ∧ ((run_image_command ops env uuid true image_file true (some c) cmd st).2.1).files
        (bmapDest image_file) = some bm := by
  rcases hst : stage ops uuid image_file c0 (mkTmpDir uuid st) with ⟨r, st2, tr⟩
  rw [hst] at hstage
  simp only at hstage
  subst hstage
  obtain ⟨htmp, hdst⟩ := stage_ok_shape _ _ _ _ _ _ _ _ _ _ hst
  subst htmp
  subst hdst
  have hrun := run_with_bmap_eq ops env uuid true image_file (some c) cmd st c0
    staged mutated bm st2 tr hctr hsrc hst hcmd hbm
  have hieq : emitImage ops uuid ⟨image_file.dir, stagedName image_file⟩
      ⟨tmpDir uuid, stagedName image_file⟩ mutated (some c)
      (((st2.write ⟨tmpDir uuid, stagedName image_file⟩ mutated).write
          ⟨tmpDir uuid, stagedName image_file ++ ".bmap"⟩ bm).write
        ⟨image_file.dir, stagedName image_file ++ ".bmap"⟩ bm)
      = (.error e,
         ((st2.write ⟨tmpDir uuid, stagedName image_file⟩ mutated).write
             ⟨tmpDir uuid, stagedName image_file ++ ".bmap"⟩ bm).write
           ⟨image_file.dir, stagedName image_file ++ ".bmap"⟩ bm, []) := by
    simp [emitImage, henc]
  rw [hieq] at hrun
  dsimp only at hrun
  rw [hrun]
  constructor
  · rfl
  · rw [finish_files_frame _ _ _ _ _ (bmapDest image_file)
      (show (bmapDest image_file).dir ≠ tmpDir uuid from himg)]
    exact State.write_files_self _ _ _

/-- Witness for C10: gzip source, zstd target whose encoder fails; the
destination bmap file is present although the run failed. -/
theorem bmap_survives_failed_compression_witness :
    sampleOps.encode .zstd "dgz:S" = .error "zstd encode failed"
    ∧ (run_image_command sampleOps none "u" true ⟨["d"], "image.wic.gz"⟩ true
        (some .zstd) (fun c => .ok c) (oneFile ⟨["d"], "image.wic.gz"⟩ "S")).1
      = .error "zstd encode failed"
    ∧ ((run_image_command sampleOps none "u" true ⟨["d"], "image.wic.gz"⟩ true
        (some .zstd) (fun c => .ok c) (oneFile ⟨["d"], "image.wic.gz"⟩ "S")).2.1).files
        (bmapDest ⟨["d"], "image.wic.gz"⟩) = some "bmap:dgz:S" :=
  ⟨by decide,
    (bmap_survives_failed_compression sampleOps none "u" ⟨["d"], "image.wic.gz"⟩
      .zstd (fun c => .ok c) (oneFile ⟨["d"], "image.wic.gz"⟩ "S") "S"
      ⟨tmpDir "u", "image.wic"⟩ ⟨["d"], "image.wic"⟩ "dgz:S" "dgz:S" "bmap:dgz:S"
      "zstd encode failed" (by decide) (by decide) (by decide) (by decide)
      (by decide) (by decide) (by decide)).1,
    (bmap_survives_failed_compression sampleOps none "u" ⟨["d"], "image.wic.gz"⟩
      .zstd (fun c => .ok c) (oneFile ⟨["d"], "image.wic.gz"⟩ "S") "S"
      ⟨tmpDir "u", "image.wic"⟩ ⟨["d"], "image.wic"⟩ "dgz:S" "dgz:S" "bmap:dgz:S"
      "zstd encode failed" (by decide) (by decide) (by decide) (by decide)
      (by decide) (by decide) (by decide)).2⟩

/-- C8: after successful staging and mutation, when a target compression
is requested and its encoder succeeds the run succeeds and the encoded
image sits at the destination path whose file name is the staged name
with the target codec extension (so image.wic.gz with target xz yields
image.wic.xz); when no target compression is requested the run succeeds
and the plain mutated staged image is sparse-copied to the destination
path. -/
theorem output_written_to_destination (ops : Ops) (env : Option String)
    (uuid : String) (image_file : Path) (gb : Bool) (tc : Option Compression)
    (cmd : Content → Except Err Content) (st : State)
    (c0 : Content) (tmp dst : Path) (staged mutated bm : Content)
    (hctr : containerized env = false)
    (himg : image_file.dir ≠ tmpDir uuid)
    (hsrc : st.files image_file = some c0)
    (hstage : (stage ops uuid image_file c0 (mkTmpDir uuid st)).1
      = .ok (tmp, dst, staged))
    (hcmd : cmd staged = .ok mutated)
    (hbm : ops.bmapOf mutated = .ok bm) :
    (∀ c packed, tc = some c → ops.encode c mutated = .ok packed →
      (run_image_command ops env uuid true image_file gb tc cmd st).1 = .ok ()
      ∧ ((run_image_command ops env uuid true image_file gb tc cmd st).2.1).files
          (destPath image_file tc) = some packed)
    ∧ (tc = none →
      (run_image_command ops env uuid true image_file gb tc cmd st).1 = .ok ()
      ∧ ((run_image_command ops env uuid true image_file gb tc cmd st).2.1).files
          (destPath image_file none) = some mutated
      ∧ Event.sparseCopy ⟨tmpDir uuid, stagedName image_file⟩
          (destPath image_file none)
        ∈ (run_image_command ops env uuid true image_file gb tc cmd st).2.2) := by
  rcases hst : stage ops uuid image_file c0 (mkTmpDir uuid st) with ⟨r, st2, tr⟩
  rw [hst] at hstage
  simp only at hstage
  subst hstage
  obtain ⟨htmp, hdst⟩ := stage_ok_shape _ _ _ _ _ _ _ _ _ _ hst
  subst htmp
  subst hdst
  cases gb with
  | true =>
    have hrun := run_with_bmap_eq ops env uuid true image_file tc cmd st c0
      staged mutated bm st2 tr hctr hsrc hst hcmd hbm
    constructor
    · intro c packed htc henc
      subst htc
      have hieq : emitImage ops uuid ⟨image_file.dir, stagedName image_file⟩
          ⟨tmpDir uuid, stagedName image_file⟩ mutated (some c)
          (((st2.write ⟨tmpDir uuid, stagedName image_file⟩ mutated).write
              ⟨tmpDir uuid, stagedName image_file ++ ".bmap"⟩ bm).write
            ⟨image_file.dir, stagedName image_file ++ ".bmap"⟩ bm)
          = (.ok (),
             (((((st2.write ⟨tmpDir uuid, stagedName image_file⟩ mutated).write
                  ⟨tmpDir uuid, stagedName image_file ++ ".bmap"⟩ bm).write
                ⟨image_file.dir, stagedName image_file ++ ".bmap"⟩ bm).write
               ⟨tmpDir uuid, stagedName image_file ++ "." ++ c.ext⟩ packed).write
              ⟨image_file.dir, stagedName image_file ++ "." ++ c.ext⟩ packed),
             [Event.plainCopy ⟨tmpDir uuid, stagedName image_file ++ "." ++ c.ext⟩
               ⟨image_file.dir, stagedName image_file ++ "." ++ c.ext⟩]) := by
        simp [emitImage, henc]
      rw [hieq] at hrun
      dsimp only at hrun
      rw [hrun]
      constructor
      · rfl
      · rw [finish_files_frame _ _ _ _ _ (destPath image_file (some c))
          (show (destPath image_file (some c)).dir ≠ tmpDir uuid from himg)]
        exact State.write_files_self _ _ _
    · intro htc
      subst htc
      have hieq : emitImage ops uuid ⟨image_file.dir, stagedName image_file⟩
          ⟨tmpDir uuid, stagedName image_file⟩ mutated none
          (((st2.write ⟨tmpDir uuid, stagedName image_file⟩ mutated).write
              ⟨tmpDir uuid, stagedName image_file ++ ".bmap"⟩ bm).write
            ⟨image_file.dir, stagedName image_file ++ ".bmap"⟩ bm)
          = (.ok (),
             ((((st2.write ⟨tmpDir uuid, stagedName image_file⟩ mutated).write
                  ⟨tmpDir uuid, stagedName image_file ++ ".bmap"⟩ bm).write
                ⟨image_file.dir, stagedName image_file ++ ".bmap"⟩ bm).write
               ⟨image_file.dir, stagedName image_file⟩ mutated),
             [Event.sparseCopy ⟨tmpDir uuid, stagedName image_file⟩
               ⟨image_file.dir, stagedName image_file⟩]) := by
        simp [emitImage]
      rw [hieq] at hrun
      dsimp only at hrun
      rw [hrun]
      refine ⟨rfl, ?_, ?_⟩
      · rw [finish_files_frame _ _ _ _ _ (destPath image_file none)
          (show (destPath image_file none).dir ≠ tmpDir uuid from himg)]
        exact State.write_files_self _ _ _
      · simp [finish, destPath]
  | false =>
    have hrun := run_no_bmap_eq ops env uuid true image_file tc cmd st c0
      staged mutated st2 tr hsrc hst hcmd
    constructor
    · intro c packed htc henc
      subst htc
      have hieq : emitImage ops uuid ⟨image_file.dir, stagedName image_file⟩
          ⟨tmpDir uuid, stagedName image_file⟩ mutated (some c)
          (st2.write ⟨tmpDir uuid, stagedName image_file⟩ mutated)
          = (.ok (),
             (((st2.write ⟨tmpDir uuid, stagedName image_file⟩ mutated).write
               ⟨tmpDir uuid, stagedName image_file ++ "." ++ c.ext⟩ packed).write
              ⟨image_file.dir, stagedName image_file ++ "." ++ c.ext⟩ packed),
             [Event.plainCopy ⟨tmpDir uuid, stagedName image_file ++ "." ++ c.ext⟩
               ⟨image_file.dir, stagedName image_file ++ "." ++ c.ext⟩]) := by
        simp [emitImage, henc]
      rw [hieq] at hrun
      dsimp only at hrun
      rw [hrun]
      constructor
      · rfl
      · rw [finish_files_frame _ _ _ _ _ (destPath image_file (some c))
          (show (destPath image_file (some c)).dir ≠ tmpDir uuid from himg)]
        exact State.write_files_self _ _ _
    · intro htc
      subst htc
      have hieq : emitImage ops uuid ⟨image_file.dir, stagedName image_file⟩
          ⟨tmpDir uuid, stagedName image_file⟩ mutated none
          (st2.write ⟨tmpDir uuid, stagedName image_file⟩ mutated)
          = (.ok (),
             ((st2.write ⟨tmpDir uuid, stagedName image_file⟩ mutated).write
               ⟨image_file.dir, stagedName image_file⟩ mutated),
             [Event.sparseCopy ⟨tmpDir uuid, stagedName image_file⟩
               ⟨image_file.dir, stagedName image_file⟩]) := by
        simp [emitImage]
      rw [hieq] at hrun
      dsimp only at hrun
      rw [hrun]
      refine ⟨rfl, ?_, ?_⟩
      · rw [finish_files_frame _ _ _ _ _ (destPath image_file none)
          (show (destPath image_file none).dir ≠ tmpDir uuid from himg)]
        exact State.write_files_self _ _ _
      · simp [finish, destPath]

/-- Witness for C8: concrete gzip source with xz target yields output
image.wic.xz holding the encoded content; the no-compression side is
witnessed on the same image without a target codec. -/
theorem output_written_to_destination_witness :
    destPath ⟨["d"], "image.wic.gz"⟩ (some .xz) = ⟨["d"], "image.wic.xz"⟩
    ∧ sampleOps.encode .xz "dgz:S" = .ok "exz:dgz:S"
    ∧ ((run_image_command sampleOps none "u" true ⟨["d"], "image.wic.gz"⟩ false
        (some .xz) (fun c => .ok c) (oneFile ⟨["d"], "image.wic.gz"⟩ "S")).2.1).files
        (destPath ⟨["d"], "image.wic.gz"⟩ (some .xz)) = some "exz:dgz:S"
    ∧ ((run_image_command sampleOps none "u" true ⟨["d"], "image.wic.gz"⟩ false
        none (fun c => .ok c) (oneFile ⟨["d"], "image.wic.gz"⟩ "S")).2.1).files
        (destPath ⟨["d"], "image.wic.gz"⟩ none) = some "dgz:S" :=
  ⟨by decide, by decide,
    ((output_written_to_destination sampleOps none "u" ⟨["d"], "image.wic.gz"⟩
      false (some .xz) (fun c => .ok c) (oneFile ⟨["d"], "image.wic.gz"⟩ "S") "S"
      ⟨tmpDir "u", "image.wic"⟩ ⟨["d"], "image.wic"⟩ "dgz:S" "dgz:S" "bmap:dgz:S"
      (by decide) (by decide) (by decide) (by decide) (by decide)
      (by decide)).1 .xz "exz:dgz:S" rfl (by decide)).2,
    ((output_written_to_destination sampleOps none "u" ⟨["d"], "image.wic.gz"⟩
      false none (fun c => .ok c) (oneFile ⟨["d"], "image.wic.gz"⟩ "S") "S"
      ⟨tmpDir "u", "image.wic"⟩ ⟨["d"], "image.wic"⟩ "dgz:S" "dgz:S" "bmap:dgz:S"
      (by decide) (by decide) (by decide) (by decide) (by decide)
      (by decide)).2 rfl).2.1⟩

/-- C9: the containerized signal is active exactly when the CONTAINERIZED
variable reads as the literal string true or the literal string 1; for
every other value, and when the variable is unset or unreadable (env =
none), a run with generate_bmap = true behaves exactly as with the
variable unset, so the precondition does not reject it. -/
theorem containerized_signal_exact :
    (∀ env : Option String,
        containerized env = true ↔ env = some "true" ∨ env = some "1")
    ∧ ∀ (ops : Ops) (env : Option String) (uuid : String) (removeOk : Bool)
        (image_file : Path) (tc : Option Compression)
        (cmd : Content → Except Err Content) (st : State),
        env ≠ some "true" → env ≠ some "1" →
        run_image_command ops env uuid removeOk image_file true tc cmd st
          = run_image_command ops none uuid removeOk image_file true tc cmd st := by
  constructor
  · intro env
    simp [containerized]
  · intro ops env uuid removeOk image_file tc cmd st h1 h2
    have hc : containerized env = false := by
      simp [containerized]
      exact ⟨h1, h2⟩
    have hn : containerized none = false := rfl
    simp [run_image_command, hc, hn]

/-- Witness for C9 at a concrete non-signal value of the variable. -/
theorem containerized_signal_exact_witness :
    some "TRUE" ≠ some "true" ∧ some "TRUE" ≠ some "1"
    ∧ run_image_command sampleOps (some "TRUE") "u" true ⟨["d"], "a.wic"⟩ true
        none (fun c => .ok c) (oneFile ⟨["d"], "a.wic"⟩ "S")
      = run_image_command sampleOps none "u" true ⟨["d"], "a.wic"⟩ true
          none (fun c => .ok c) (oneFile ⟨["d"], "a.wic"⟩ "S") :=
  ⟨by decide, by decide,
    containerized_signal_exact.2 sampleOps (some "TRUE") "u" true
      ⟨["d"], "a.wic"⟩ none (fun c => .ok c) (oneFile ⟨["d"], "a.wic"⟩ "S")
      (by decide) (by decide)⟩

end OmnectCli
